import Mathlib

/-!
Shallow embedding of the geocoding / nearest-branch core of `app.py`
(functions `geocode_address_nominatim`, `haversine_distance`,
`find_nearest_branch`), together with proofs of the specified properties.

Python floats are modelled as real numbers; Python's `float("inf")`
sentinel is modelled by the top element of `EReal`.  A branch record's
coordinate fields may be absent or hold non-numeric values; the inductive
type `Campo` captures exactly the outcomes of evaluating
`float(record["key"])`, and `Excepcion` the exception classes that the
source code catches or lets escape.
-/

noncomputable section

/-- `math.radians`: degrees to radians. -/
def radians (x : ℝ) : ℝ := x * Real.pi / 180

/-- `math.atan2 y x`, with the conventions of the C library / Python:
quadrant-aware arctangent, `atan2 0 0 = 0`. -/
def atan2 (y x : ℝ) : ℝ :=
  if 0 < x then Real.arctan (y / x)
  else if x < 0 ∧ 0 ≤ y then Real.arctan (y / x) + Real.pi
  else if x < 0 then Real.arctan (y / x) - Real.pi
  else if 0 < y then Real.pi / 2
  else if y < 0 then -(Real.pi / 2)
  else 0

/-- `haversine_distance` from `app.py`, line for line:
```
R = 6371.0
dlat = math.radians(lat2 - lat1)
dlon = math.radians(lon2 - lon1)
a = sin(dlat/2)**2 + cos(radians(lat1)) * cos(radians(lat2)) * sin(dlon/2)**2
c = 2 * atan2(sqrt(a), sqrt(1 - a))
return R * c
``` -/
def haversine_distance (lat1 lon1 lat2 lon2 : ℝ) : ℝ :=
  let R : ℝ := 6371.0
  let dlat := radians (lat2 - lat1)
  let dlon := radians (lon2 - lon1)
  let a := Real.sin (dlat / 2) ^ 2 +
    Real.cos (radians lat1) * Real.cos (radians lat2) * Real.sin (dlon / 2) ^ 2
  let c := 2 * atan2 (Real.sqrt a) (Real.sqrt (1 - a))
  R * c

/-- The outcome of evaluating `float(x)` on the value found under a
record key (or on a missing key):
* `num r`    — a numeric value; `float` succeeds and yields `r`;
* `strNum r` — a string spelling a number; `float` succeeds and yields `r`;
* `strNoNum` — a string not spelling a number; `float` raises `ValueError`;
* `ausente`  — the key is absent; the subscript raises `KeyError`;
* `nulo`     — a non-string, non-numeric value such as `None`;
  `float` raises `TypeError`. -/
inductive Campo where
  | num (r : ℝ)
  | strNum (r : ℝ)
  | strNoNum
  | ausente
  | nulo

/-- The exception classes relevant to the two `except` clauses of the
source. -/
inductive Excepcion where
  | keyError
  | valueError
  | typeError
deriving DecidableEq

/-- `float(record["key"])` as an exception-aware computation. -/
def floatDe : Campo → Except Excepcion ℝ
  | .num r => .ok r
  | .strNum r => .ok r
  | .strNoNum => .error .valueError
  | .ausente => .error .keyError
  | .nulo => .error .typeError

/-- `float(record["key"])` with every exception collapsed to `none`
(the `find_nearest_branch` loop catches `KeyError`, `ValueError` and
`TypeError`, which is every constructor of `Excepcion`). -/
def parseFloat (c : Campo) : Option ℝ := (floatDe c).toOption

/-- A branch record (`{nombre, lat, lng}`-shaped, as loaded from the
JSON file); the coordinate fields may be malformed. -/
structure Sucursal where
  nombre : String
  lat : Campo
  lng : Campo

/-- The body of the `try` in `find_nearest_branch`:
`(float(s["lat"]), float(s["lng"]))`, with any of the three caught
exception classes collapsed to `none`. -/
def parseCoords (s : Sucursal) : Option (ℝ × ℝ) :=
  match parseFloat s.lat, parseFloat s.lng with
  | some la, some lo => some (la, lo)
  | _, _ => none

/-- Distance from the origin to a parsed coordinate pair. -/
def dOf (ulat ulon : ℝ) (p : ℝ × ℝ) : ℝ := haversine_distance ulat ulon p.1 p.2

/-- The `for s in sucursales` loop of `find_nearest_branch`, with the
running state (`nearest`, `min_dist`) passed explicitly.  `min_dist`
lives in `EReal` because it starts at `float("inf")`. -/
def findNearestAux (ulat ulon : ℝ) :
    List Sucursal → Option Sucursal → EReal → Option Sucursal × EReal
  | [], nearest, min_dist => (nearest, min_dist)
  | s :: rest, nearest, min_dist =>
    match parseCoords s with
    | none => findNearestAux ulat ulon rest nearest min_dist
    | some p =>
      if ((dOf ulat ulon p : ℝ) : EReal) < min_dist then
        findNearestAux ulat ulon rest (some s) ((dOf ulat ulon p : ℝ) : EReal)
      else
        findNearestAux ulat ulon rest nearest min_dist

/-- `find_nearest_branch` from `app.py`: `nearest = None`,
`min_dist = float("inf")`, then the scan. -/
def find_nearest_branch (user_lat user_lon : ℝ) (sucursales : List Sucursal) :
    Option Sucursal × EReal :=
  findNearestAux user_lat user_lon sucursales none ⊤

/-- The intermediate value `a` of the haversine computation, named so
that symmetry can be proved once about it. -/
def hav_a (lat1 lon1 lat2 lon2 : ℝ) : ℝ :=
  Real.sin (radians (lat2 - lat1) / 2) ^ 2 +
    Real.cos (radians lat1) * Real.cos (radians lat2) *
      Real.sin (radians (lon2 - lon1) / 2) ^ 2

/-- The haversine formula exactly as the specification words it:
`2 · R · atan2(√a, √(1-a))` with `R = 6371.0` and
`a = sin²(Δlat/2) + cos(lat1)·cos(lat2)·sin²(Δlon/2)`, all angles
converted from degrees to radians before use. -/
def haversine_spec (lat1 lon1 lat2 lon2 : ℝ) : ℝ :=
  2 * 6371.0 *
    atan2 (Real.sqrt (hav_a lat1 lon1 lat2 lon2))
      (Real.sqrt (1 - hav_a lat1 lon1 lat2 lon2))

lemma haversine_eq_hav_a (lat1 lon1 lat2 lon2 : ℝ) :
    haversine_distance lat1 lon1 lat2 lon2 =
      6371.0 * (2 * atan2 (Real.sqrt (hav_a lat1 lon1 lat2 lon2))
        (Real.sqrt (1 - hav_a lat1 lon1 lat2 lon2))) := rfl

lemma hav_a_symm (lat1 lon1 lat2 lon2 : ℝ) :
    hav_a lat1 lon1 lat2 lon2 = hav_a lat2 lon2 lat1 lon1 := by
  unfold hav_a
  have h1 : radians (lat1 - lat2) / 2 = -(radians (lat2 - lat1) / 2) := by
    unfold radians; ring
  have h2 : radians (lon1 - lon2) / 2 = -(radians (lon2 - lon1) / 2) := by
    unfold radians; ring
  rw [h1, h2]
  simp only [Real.sin_neg]
  ring

lemma atan2_zero_one : atan2 0 1 = 0 := by
  unfold atan2
  rw [if_pos one_pos]
  simp [Real.arctan_zero]

/-- Claim C5.  `haversine_distance` computes exactly the distance the
spec describes: `2 · 6371.0 · atan2(√a, √(1-a))` with
`a = sin²(Δlat/2) + cos(lat1)·cos(lat2)·sin²(Δlon/2)`, all angle
inputs converted from degrees to radians before use. -/
theorem haversine_formula (lat1 lon1 lat2 lon2 : ℝ) :
    haversine_distance lat1 lon1 lat2 lon2 = haversine_spec lat1 lon1 lat2 lon2 := by
  rw [haversine_eq_hav_a]
  unfold haversine_spec
  ring

/-- Claim C7.  The haversine distance is symmetric in its two coordinate
arguments (exactly, in the real-number model of Python floats). -/
theorem haversine_symm (lat1 lon1 lat2 lon2 : ℝ) :
    haversine_distance lat1 lon1 lat2 lon2 = haversine_distance lat2 lon2 lat1 lon1 := by
  rw [haversine_eq_hav_a lat1 lon1 lat2 lon2, haversine_eq_hav_a lat2 lon2 lat1 lon1,
    hav_a_symm lat1 lon1 lat2 lon2]

/-- Claim C8.  The haversine distance from any coordinate to itself is
exactly zero. -/
theorem haversine_zero (lat lon : ℝ) :
    haversine_distance lat lon lat lon = 0 := by
  rw [haversine_eq_hav_a]
  have ha : hav_a lat lon lat lon = 0 := by
    unfold hav_a radians
    simp
  rw [ha]
  norm_num [Real.sqrt_zero, Real.sqrt_one, atan2_zero_one]

/-! ### Step equations for the scan loop -/

lemma aux_nil (ulat ulon : ℝ) (n : Option Sucursal) (m : EReal) :
    findNearestAux ulat ulon [] n m = (n, m) := rfl

lemma aux_cons_none (ulat ulon : ℝ) {s : Sucursal} (rest : List Sucursal)
    (n : Option Sucursal) (m : EReal) (h : parseCoords s = none) :
    findNearestAux ulat ulon (s :: rest) n m = findNearestAux ulat ulon rest n m := by
  simp [findNearestAux, h]

lemma aux_cons_some_lt (ulat ulon : ℝ) {s : Sucursal} (rest : List Sucursal)
    (n : Option Sucursal) (m : EReal) {p : ℝ × ℝ} (h : parseCoords s = some p)
    (hlt : ((dOf ulat ulon p : ℝ) : EReal) < m) :
    findNearestAux ulat ulon (s :: rest) n m =
      findNearestAux ulat ulon rest (some s) ((dOf ulat ulon p : ℝ) : EReal) := by
  simp [findNearestAux, h, hlt]

lemma aux_cons_some_ge (ulat ulon : ℝ) {s : Sucursal} (rest : List Sucursal)
    (n : Option Sucursal) (m : EReal) {p : ℝ × ℝ} (h : parseCoords s = some p)
    (hge : ¬ ((dOf ulat ulon p : ℝ) : EReal) < m) :
    findNearestAux ulat ulon (s :: rest) n m = findNearestAux ulat ulon rest n m := by
  simp [findNearestAux, h, hge]

/-- Master characterization of the scan loop: starting from accumulator
`(n, m)`, either no branch of the list beats `m` and the accumulator is
returned unchanged, or the list splits as `l1 ++ s :: l2` where `s` is
the FIRST branch attaining the minimum: every parsable branch before it
is strictly farther, every parsable branch after it is no closer. -/
lemma findNearestAux_spec (ulat ulon : ℝ) (ss : List Sucursal) :
    ∀ (n : Option Sucursal) (m : EReal),
      (findNearestAux ulat ulon ss n m = (n, m) ∧
        ∀ t ∈ ss, ∀ q : ℝ × ℝ, parseCoords t = some q →
          m ≤ ((dOf ulat ulon q : ℝ) : EReal))
      ∨ (∃ (l1 : List Sucursal) (s : Sucursal) (l2 : List Sucursal) (p : ℝ × ℝ),
          ss = l1 ++ s :: l2 ∧ parseCoords s = some p ∧
          findNearestAux ulat ulon ss n m = (some s, ((dOf ulat ulon p : ℝ) : EReal)) ∧
          ((dOf ulat ulon p : ℝ) : EReal) < m ∧
          (∀ t ∈ l1, ∀ q : ℝ × ℝ, parseCoords t = some q →
            dOf ulat ulon p < dOf ulat ulon q) ∧
          (∀ t ∈ l2, ∀ q : ℝ × ℝ, parseCoords t = some q →
            dOf ulat ulon p ≤ dOf ulat ulon q)) := by
  induction ss with
  | nil =>
    intro n m
    left
    exact ⟨rfl, by simp⟩
  | cons s rest ih =>
    intro n m
    cases hp : parseCoords s with
    | none =>
      have hstep := aux_cons_none ulat ulon rest n m hp
      rcases ih n m with ⟨heq, hmin⟩ | ⟨l1, s', l2, p, hss, hps, heq, hlt, h1, h2⟩
      · left
        refine ⟨by rw [hstep, heq], ?_⟩
        intro t ht q hq
        rcases List.mem_cons.mp ht with rfl | ht'
        · rw [hp] at hq; exact absurd hq (by simp)
        · exact hmin t ht' q hq
      · right
        refine ⟨s :: l1, s', l2, p, by rw [hss]; rfl, hps, by rw [hstep, heq], hlt, ?_, h2⟩
        intro t ht q hq
        rcases List.mem_cons.mp ht with rfl | ht'
        · rw [hp] at hq; exact absurd hq (by simp)
        · exact h1 t ht' q hq
    | some p =>
      by_cases hlt : ((dOf ulat ulon p : ℝ) : EReal) < m
      · have hstep := aux_cons_some_lt ulat ulon rest n m hp hlt
        rcases ih (some s) ((dOf ulat ulon p : ℝ) : EReal) with
          ⟨heq, hmin⟩ | ⟨l1, s', l2, p', hss, hps, heq, hlt', h1, h2⟩
        · right
          refine ⟨[], s, rest, p, by simp, hp, by rw [hstep, heq], hlt, by simp, ?_⟩
          intro t ht q hq
          exact_mod_cast hmin t ht q hq
        · right
          refine ⟨s :: l1, s', l2, p', by rw [hss]; rfl, hps, by rw [hstep, heq],
            lt_trans hlt' hlt, ?_, h2⟩
          intro t ht q hq
          rcases List.mem_cons.mp ht with rfl | ht'
          · rw [hp] at hq
            injection hq with hq
            subst hq
            exact_mod_cast hlt'
          · exact h1 t ht' q hq
      · have hstep := aux_cons_some_ge ulat ulon rest n m hp hlt
        rcases ih n m with ⟨heq, hmin⟩ | ⟨l1, s', l2, p', hss, hps, heq, hlt', h1, h2⟩
        · left
          refine ⟨by rw [hstep, heq], ?_⟩
          intro t ht q hq
          rcases List.mem_cons.mp ht with rfl | ht'
          · rw [hp] at hq
            injection hq with hq
            subst hq
            exact not_lt.mp hlt
          · exact hmin t ht' q hq
        · right
          refine ⟨s :: l1, s', l2, p', by rw [hss]; rfl, hps, by rw [hstep, heq],
            hlt', ?_, h2⟩
          intro t ht q hq
          rcases List.mem_cons.mp ht with rfl | ht'
          · rw [hp] at hq
            injection hq with hq
            subst hq
            have hm : m ≤ ((dOf ulat ulon p : ℝ) : EReal) := not_lt.mp hlt
            exact_mod_cast lt_of_lt_of_le hlt' hm
          · exact h1 t ht' q hq

/-- If every branch of the list is unparsable, the scan returns the
accumulator unchanged. -/
lemma aux_all_unparsable (ulat ulon : ℝ) (ss : List Sucursal)
    (n : Option Sucursal) (m : EReal) (h : ∀ s ∈ ss, parseCoords s = none) :
    findNearestAux ulat ulon ss n m = (n, m) := by
  induction ss with
  | nil => rfl
  | cons s rest ih =>
    rw [aux_cons_none ulat ulon rest n m (h s (List.mem_cons_self s rest))]
    exact ih fun t ht => h t (List.mem_cons_of_mem s ht)

/-- Concrete branch records used as witnesses. -/
def sA : Sucursal := ⟨"A", Campo.num 0, Campo.num 0⟩

def sB : Sucursal := ⟨"B", Campo.num 1, Campo.num 1⟩

def sMala : Sucursal := ⟨"mala", Campo.strNoNum, Campo.num 0⟩

def sBuena : Sucursal := ⟨"buena", Campo.num 5, Campo.num 5⟩

/-- Claim C1.  For every origin and every branch list containing at
least one parsable entry, `find_nearest_branch` returns one of the
parsable branches paired with its haversine distance from the origin,
and that distance is ≤ the distance to every other parsable branch. -/
theorem find_nearest_minimal (ulat ulon : ℝ) (ss : List Sucursal)
    (h : ∃ s ∈ ss, (parseCoords s).isSome = true) :
    ∃ (s : Sucursal) (p : ℝ × ℝ), s ∈ ss ∧ parseCoords s = some p ∧
      find_nearest_branch ulat ulon ss = (some s, ((dOf ulat ulon p : ℝ) : EReal)) ∧
      ∀ t ∈ ss, ∀ q : ℝ × ℝ, parseCoords t = some q →
        dOf ulat ulon p ≤ dOf ulat ulon q := by
  rcases findNearestAux_spec ulat ulon ss none ⊤ with
    ⟨_, hmin⟩ | ⟨l1, s, l2, p, hss, hps, heq, _, h1, h2⟩
  · obtain ⟨t, ht, hsome⟩ := h
    obtain ⟨q, hq⟩ := Option.isSome_iff_exists.mp hsome
    exact absurd (hmin t ht q hq) (EReal.coe_lt_top (dOf ulat ulon q)).not_le
  · refine ⟨s, p, by rw [hss]; exact List.mem_append_right l1 (List.mem_cons_self s l2),
      hps, heq, ?_⟩
    intro t ht q hq
    rw [hss] at ht
    rcases List.mem_append.mp ht with ht1 | ht2
    · exact le_of_lt (h1 t ht1 q hq)
    · rcases List.mem_cons.mp ht2 with rfl | ht2'
      · rw [hps] at hq
        injection hq with hq
        rw [hq]
      · exact h2 t ht2' q hq

/-- Closed instance of C1 at a concrete origin and branch list. -/
theorem find_nearest_minimal_witness :
    (∃ s ∈ [sA], (parseCoords s).isSome = true) ∧
    ∃ (s : Sucursal) (p : ℝ × ℝ), s ∈ [sA] ∧ parseCoords s = some p ∧
      find_nearest_branch 3 4 [sA] = (some s, ((dOf 3 4 p : ℝ) : EReal)) ∧
      ∀ t ∈ [sA], ∀ q : ℝ × ℝ, parseCoords t = some q →
        dOf 3 4 p ≤ dOf 3 4 q :=
  ⟨⟨sA, List.mem_singleton.mpr rfl, rfl⟩,
    find_nearest_minimal 3 4 [sA] ⟨sA, List.mem_singleton.mpr rfl, rfl⟩⟩

/-- Claim C2.  The running minimum is updated only on a strict
less-than comparison, so the FIRST branch attaining the minimal
distance wins: whenever the scan returns `(some s, d)`, the list splits
as `l1 ++ s :: l2` with every parsable branch of `l1` strictly farther
than `d` and every parsable branch of `l2` at distance ≥ `d`; in
particular, of two branches with identical coordinates the one
appearing first in the input is returned. -/
theorem tie_break_stability :
    (∀ (ulat ulon : ℝ) (ss : List Sucursal) (s : Sucursal) (d : ℝ),
      find_nearest_branch ulat ulon ss = (some s, (d : EReal)) →
      ∃ (l1 l2 : List Sucursal) (p : ℝ × ℝ),
        ss = l1 ++ s :: l2 ∧ parseCoords s = some p ∧ d = dOf ulat ulon p ∧
        (∀ t ∈ l1, ∀ q : ℝ × ℝ, parseCoords t = some q → d < dOf ulat ulon q) ∧
        (∀ t ∈ l2, ∀ q : ℝ × ℝ, parseCoords t = some q → d ≤ dOf ulat ulon q)) ∧
    (∀ (ulat ulon : ℝ) (s1 s2 : Sucursal) (p : ℝ × ℝ),
      parseCoords s1 = some p → parseCoords s2 = some p →
      (find_nearest_branch ulat ulon [s1, s2]).1 = some s1) := by
  constructor
  · intro ulat ulon ss s d heq
    rcases findNearestAux_spec ulat ulon ss none ⊤ with
      ⟨heq0, _⟩ | ⟨l1, s', l2, p, hss, hps, heq0, _, h1, h2⟩
    · rw [find_nearest_branch, heq0] at heq
      exact absurd (congrArg Prod.fst heq) (by simp)
    · rw [find_nearest_branch, heq0] at heq
      obtain ⟨hs, hd⟩ := Prod.mk.injEq .. ▸ heq
      injection hs with hs
      subst hs
      have hd' : d = dOf ulat ulon p := (EReal.coe_eq_coe_iff.mp hd).symm
      subst hd'
      exact ⟨l1, l2, p, hss, hps, rfl, h1, h2⟩
  · intro ulat ulon s1 s2 p hp1 hp2
    have h1 := aux_cons_some_lt ulat ulon [s2] none ⊤ hp1
      (EReal.coe_lt_top (dOf ulat ulon p))
    have h2 := aux_cons_some_ge ulat ulon ([] : List Sucursal) (some s1)
      ((dOf ulat ulon p : ℝ) : EReal) hp2 (lt_irrefl _)
    rw [find_nearest_branch, h1, h2, aux_nil]

/-- Closed instance of C2 at two concrete branches with identical
coordinates: the first one is returned. -/
theorem tie_break_stability_witness :
    (find_nearest_branch 3 4 [sA, Sucursal.mk "A2" (Campo.num 0) (Campo.num 0)]).1 =
      some sA :=
  tie_break_stability.2 3 4 sA (Sucursal.mk "A2" (Campo.num 0) (Campo.num 0))
    (0, 0) rfl rfl

/-- Claim C3.  If the branch list is empty or every entry is
unparsable, `find_nearest_branch` reports "not found": no branch
(first component `none`) and no distance (the second component is not
the distance coercion of any real number); being a total function of
its inputs, it raises no fault and returns no partial branch. -/
theorem find_nearest_not_found (ulat ulon : ℝ) (ss : List Sucursal)
    (h : ∀ s ∈ ss, parseCoords s = none) :
    (find_nearest_branch ulat ulon ss).1 = none ∧
    ∀ d : ℝ, (find_nearest_branch ulat ulon ss).2 ≠ (d : EReal) := by
  have heq : find_nearest_branch ulat ulon ss = (none, ⊤) :=
    aux_all_unparsable ulat ulon ss none ⊤ h
  rw [heq]
  exact ⟨rfl, fun d => (EReal.coe_ne_top d).symm⟩

/-- Closed instance of C3 on the empty list and on a list whose only
entry is unparsable. -/
theorem find_nearest_not_found_witness :
    (find_nearest_branch 3 4 [sMala]).1 = none ∧
    ∀ d : ℝ, (find_nearest_branch 3 4 [sMala]).2 ≠ (d : EReal) :=
  find_nearest_not_found 3 4 [sMala]
    (fun s hs => by rw [List.mem_singleton.mp hs]; rfl)

/-- Claim C10.  The "not found" result is concretely the pair
`(None, float("inf"))`: the distance component is the positive-infinity
sentinel, not an absent value. -/
theorem find_nearest_sentinel (ulat ulon : ℝ) (ss : List Sucursal)
    (h : ∀ s ∈ ss, parseCoords s = none) :
    find_nearest_branch ulat ulon ss = (none, (⊤ : EReal)) :=
  aux_all_unparsable ulat ulon ss none ⊤ h

/-- Closed instance of C10 on the empty branch list. -/
theorem find_nearest_sentinel_witness :
    find_nearest_branch 3 4 [] = (none, (⊤ : EReal)) :=
  find_nearest_sentinel 3 4 [] (fun s hs => absurd hs (List.not_mem_nil s))

/-- Scanning a list computes the same result as scanning its parsable
sublist, whatever the accumulator. -/
lemma aux_filter (ulat ulon : ℝ) (ss : List Sucursal) :
    ∀ (n : Option Sucursal) (m : EReal),
      findNearestAux ulat ulon ss n m =
        findNearestAux ulat ulon (ss.filter fun s => (parseCoords s).isSome) n m := by
  induction ss with
  | nil => intro n m; rfl
  | cons s rest ih =>
    intro n m
    cases hp : parseCoords s with
    | none =>
      rw [aux_cons_none ulat ulon rest n m hp,
        List.filter_cons_of_neg (by simp [hp]), ih]
    | some p =>
      rw [List.filter_cons_of_pos (by simp [hp])]
      by_cases hlt : ((dOf ulat ulon p : ℝ) : EReal) < m
      · rw [aux_cons_some_lt ulat ulon rest n m hp hlt,
          aux_cons_some_lt ulat ulon _ n m hp hlt, ih]
      · rw [aux_cons_some_ge ulat ulon rest n m hp hlt,
          aux_cons_some_ge ulat ulon _ n m hp hlt, ih]

/-- Claim C4.  Unparsable branch entries are silently skipped without
aborting the scan: the result over the full list equals the result over
the sublist of parsable entries; and on the spec's example
`[{lat:"abc", lng:0}, {lat:5, lng:5}]` the second branch is returned
for every origin. -/
theorem skip_policy :
    (∀ (ulat ulon : ℝ) (ss : List Sucursal),
      find_nearest_branch ulat ulon ss =
        find_nearest_branch ulat ulon
          (ss.filter fun s => (parseCoords s).isSome)) ∧
    (∀ ulat ulon : ℝ,
      (find_nearest_branch ulat ulon [sMala, sBuena]).1 = some sBuena) := by
  constructor
  · intro ulat ulon ss
    exact aux_filter ulat ulon ss none ⊤
  · intro ulat ulon
    have h1 : parseCoords sMala = none := rfl
    have h2 : parseCoords sBuena = some (5, 5) := rfl
    rw [find_nearest_branch, aux_cons_none ulat ulon [sBuena] none ⊤ h1,
      aux_cons_some_lt ulat ulon ([] : List Sucursal) none ⊤ h2
        (EReal.coe_lt_top (dOf ulat ulon (5, 5))), aux_nil]

/-! ### The loop as a transition system on an explicit state

To express that `find_nearest_branch` only READS the branch list, the
`for` loop is modelled a second time as a step function on a state that
carries the branch list itself, the running `nearest` / `min_dist`
pair, and the loop index.  A mutating implementation could rewrite the
`sucursales` component; the source never does. -/

structure LoopState where
  sucursales : List Sucursal
  nearest : Option Sucursal
  min_dist : EReal
  idx : ℕ

/-- The body of one iteration of the `for s in sucursales` loop. -/
def visitSucursal (ulat ulon : ℝ) (st : LoopState) (s : Sucursal) : LoopState :=
  match parseCoords s with
  | none => ⟨st.sucursales, st.nearest, st.min_dist, st.idx + 1⟩
  | some p =>
    if ((dOf ulat ulon p : ℝ) : EReal) < st.min_dist then
      ⟨st.sucursales, some s, ((dOf ulat ulon p : ℝ) : EReal), st.idx + 1⟩
    else
      ⟨st.sucursales, st.nearest, st.min_dist, st.idx + 1⟩

/-- One iteration of the `for s in sucursales` loop (identity once the
index is past the end of the list). -/
def find_nearest_step (ulat ulon : ℝ) (st : LoopState) : LoopState :=
  match st.sucursales[st.idx]? with
  | none => st
  | some s => visitSucursal ulat ulon st s

/-- `k` iterations of the loop. -/
def find_nearest_run (ulat ulon : ℝ) : ℕ → LoopState → LoopState
  | 0, st => st
  | k + 1, st => find_nearest_run ulat ulon k (find_nearest_step ulat ulon st)

lemma step_get_none (ulat ulon : ℝ) {ss : List Sucursal} (n : Option Sucursal)
    (m : EReal) {i : ℕ} (h : ss[i]? = none) :
    find_nearest_step ulat ulon ⟨ss, n, m, i⟩ = ⟨ss, n, m, i⟩ := by
  unfold find_nearest_step
  dsimp only
  rw [h]

lemma step_get_some (ulat ulon : ℝ) {ss : List Sucursal} (n : Option Sucursal)
    (m : EReal) {i : ℕ} {s : Sucursal} (h : ss[i]? = some s) :
    find_nearest_step ulat ulon ⟨ss, n, m, i⟩ =
      visitSucursal ulat ulon ⟨ss, n, m, i⟩ s := by
  unfold find_nearest_step
  dsimp only
  rw [h]

lemma step_parse_none (ulat ulon : ℝ) {ss : List Sucursal} (n : Option Sucursal)
    (m : EReal) {i : ℕ} {s : Sucursal} (h : ss[i]? = some s)
    (hp : parseCoords s = none) :
    find_nearest_step ulat ulon ⟨ss, n, m, i⟩ = ⟨ss, n, m, i + 1⟩ := by
  rw [step_get_some ulat ulon n m h]
  unfold visitSucursal
  rw [hp]

lemma step_parse_lt (ulat ulon : ℝ) {ss : List Sucursal} (n : Option Sucursal)
    (m : EReal) {i : ℕ} {s : Sucursal} {p : ℝ × ℝ} (h : ss[i]? = some s)
    (hp : parseCoords s = some p) (hlt : ((dOf ulat ulon p : ℝ) : EReal) < m) :
    find_nearest_step ulat ulon ⟨ss, n, m, i⟩ =
      ⟨ss, some s, ((dOf ulat ulon p : ℝ) : EReal), i + 1⟩ := by
  rw [step_get_some ulat ulon n m h]
  unfold visitSucursal
  rw [hp]
  exact if_pos hlt

lemma step_parse_ge (ulat ulon : ℝ) {ss : List Sucursal} (n : Option Sucursal)
    (m : EReal) {i : ℕ} {s : Sucursal} {p : ℝ × ℝ} (h : ss[i]? = some s)
    (hp : parseCoords s = some p) (hge : ¬ ((dOf ulat ulon p : ℝ) : EReal) < m) :
    find_nearest_step ulat ulon ⟨ss, n, m, i⟩ = ⟨ss, n, m, i + 1⟩ := by
  rw [step_get_some ulat ulon n m h]
  unfold visitSucursal
  rw [hp]
  exact if_neg hge

lemma visit_sucursales (ulat ulon : ℝ) (st : LoopState) (s : Sucursal) :
    (visitSucursal ulat ulon st s).sucursales = st.sucursales := by
  unfold visitSucursal
  cases hp : parseCoords s with
  | none => rfl
  | some p =>
    dsimp only
    split <;> rfl

lemma step_sucursales (ulat ulon : ℝ) (st : LoopState) :
    (find_nearest_step ulat ulon st).sucursales = st.sucursales := by
  unfold find_nearest_step
  cases hg : st.sucursales[st.idx]? with
  | none => rfl
  | some s => exact visit_sucursales ulat ulon st s

/-- Iterating the loop from index `i` computes exactly the recursive
scan over `ss.drop i`. -/
lemma run_eq_aux (ulat ulon : ℝ) :
    ∀ (k : ℕ) (ss : List Sucursal) (n : Option Sucursal) (m : EReal) (i : ℕ),
      ss.length ≤ i + k →
      ((find_nearest_run ulat ulon k ⟨ss, n, m, i⟩).nearest,
        (find_nearest_run ulat ulon k ⟨ss, n, m, i⟩).min_dist) =
        findNearestAux ulat ulon (ss.drop i) n m := by
  intro k
  induction k with
  | zero =>
    intro ss n m i h
    rw [List.drop_eq_nil_of_le (by omega), aux_nil]
    rfl
  | succ k ih =>
    intro ss n m i h
    have hrun : find_nearest_run ulat ulon (k + 1) ⟨ss, n, m, i⟩ =
        find_nearest_run ulat ulon k (find_nearest_step ulat ulon ⟨ss, n, m, i⟩) := rfl
    by_cases hi : i < ss.length
    · have hget : ss[i]? = some ss[i] := List.getElem?_eq_getElem hi
      have hd : ss.drop i = ss[i] :: ss.drop (i + 1) := List.drop_eq_getElem_cons hi
      cases hp : parseCoords ss[i] with
      | none =>
        rw [hrun, step_parse_none ulat ulon n m hget hp, hd,
          aux_cons_none ulat ulon _ n m hp]
        exact ih ss n m (i + 1) (by omega)
      | some p =>
        by_cases hlt : ((dOf ulat ulon p : ℝ) : EReal) < m
        · rw [hrun, step_parse_lt ulat ulon n m hget hp hlt, hd,
            aux_cons_some_lt ulat ulon _ n m hp hlt]
          exact ih ss (some ss[i]) _ (i + 1) (by omega)
        · rw [hrun, step_parse_ge ulat ulon n m hget hp hlt, hd,
            aux_cons_some_ge ulat ulon _ n m hp hlt]
          exact ih ss n m (i + 1) (by omega)
    · have hget : ss[i]? = none := List.getElem?_eq_none (by omega)
      rw [hrun, step_get_none ulat ulon n m hget,
        List.drop_eq_nil_of_le (by omega : ss.length ≤ i), aux_nil]
      have := ih ss n m i (by omega)
      rwa [List.drop_eq_nil_of_le (by omega : ss.length ≤ i), aux_nil] at this

/-- Claim C9.  The locator never mutates the branch list: after any
number of loop iterations from any state the `sucursales` component is
unchanged, and running the loop to completion computes exactly the pure
function `find_nearest_branch` — the loop has no effect other than
producing the `(nearest, min_dist)` result. -/
theorem branch_list_read_only :
    (∀ (ulat ulon : ℝ) (k : ℕ) (st : LoopState),
      (find_nearest_run ulat ulon k st).sucursales = st.sucursales) ∧
    (∀ (ulat ulon : ℝ) (ss : List Sucursal),
      ((find_nearest_run ulat ulon ss.length ⟨ss, none, ⊤, 0⟩).nearest,
        (find_nearest_run ulat ulon ss.length ⟨ss, none, ⊤, 0⟩).min_dist) =
        find_nearest_branch ulat ulon ss) := by
  constructor
  · intro ulat ulon k
    induction k with
    | zero => intro st; rfl
    | succ k ih =>
      intro st
      calc (find_nearest_run ulat ulon (k + 1) st).sucursales
          = (find_nearest_run ulat ulon k (find_nearest_step ulat ulon st)).sucursales := rfl
        _ = (find_nearest_step ulat ulon st).sucursales := ih _
        _ = st.sucursales := step_sucursales ulat ulon st
  · intro ulat ulon ss
    have := run_eq_aux ulat ulon ss.length ss none ⊤ 0 (by omega)
    rwa [List.drop_zero] at this

/-! ### The address resolver (`geocode_address_nominatim`)

The network interaction is a parameter: a `RespuestaRed` describes the
outcome of `requests.get(...)` + `resp.json()`.  The `except` clause of
the source catches `requests.RequestException`, `ValueError` and
`KeyError` — but NOT `TypeError`, so `float(None)` on a null coordinate
field escapes to the caller. -/

/-- The first result object of the JSON payload, as seen by
`float(data[0]["lat"])` / `float(data[0]["lon"])`. -/
structure Candidato where
  lat : Campo
  lon : Campo

/-- Outcome of the request/decode phase:
* `excepcion`    — `requests.get` raised `requests.RequestException`
  (network failure, timeout);
* `jsonInvalido` — `resp.json()` raised `ValueError` (undecodable body);
* `datos l`      — a decoded JSON array of candidate objects
  (possibly empty). -/
inductive RespuestaRed where
  | excepcion
  | jsonInvalido
  | datos (l : List Candidato)

/-- Which exception classes the geocoder's `except` clause catches:
`KeyError` and `ValueError` yes, `TypeError` no. -/
def atrapadaGeo : Excepcion → Bool
  | .keyError => true
  | .valueError => true
  | .typeError => false

/-- `geocode_address_nominatim` from `app.py`: `Except.ok` is a normal
return (`ok none` = the collapsed "not found"), `Except.error` is an
exception escaping the function. -/
def geocode_address_nominatim (address : String) (red : RespuestaRed) :
    Except Excepcion (Option (ℝ × ℝ)) :=
  match red with
  | .excepcion => .ok none
  | .jsonInvalido => .ok none
  | .datos [] => .ok none
  | .datos (c :: _) =>
    match floatDe c.lat with
    | .error e => if atrapadaGeo e then .ok none else .error e
    | .ok la =>
      match floatDe c.lon with
      | .error e => if atrapadaGeo e then .ok none else .error e
      | .ok lo => .ok (some (la, lo))

/-- Counterexample to claim C6 as stated: a payload whose first
candidate has a null `lat` field (a non-numeric coordinate field) does
NOT collapse to "not found" — `float(None)` raises `TypeError`, which
the `except` clause does not catch, so the exception surfaces to the
caller. -/
theorem resolver_collapse_cex :
    geocode_address_nominatim "Calle Falsa 123"
        (RespuestaRed.datos [⟨Campo.nulo, Campo.num 1⟩]) =
      Except.error Excepcion.typeError ∧
    geocode_address_nominatim "Calle Falsa 123"
        (RespuestaRed.datos [⟨Campo.nulo, Campo.num 1⟩]) ≠
      Except.ok none := by
  refine ⟨rfl, fun h => ?_⟩
  rw [show geocode_address_nominatim "Calle Falsa 123"
      (RespuestaRed.datos [⟨Campo.nulo, Campo.num 1⟩]) =
      Except.error Excepcion.typeError from rfl] at h
  exact Except.noConfusion h

/-- Claim C6, amended.  Network failure (including timeout), an
undecodable response body, an empty result array, a missing coordinate
key (`KeyError`) and a non-numeric coordinate STRING (`ValueError`) all
collapse to the normal "not found" return; on success the first
candidate's coordinates are returned as two floats.  But a coordinate
field holding a non-string non-number value such as JSON null raises
`TypeError`, which propagates to the caller. -/
theorem resolver_failure_collapse_amended (address : String) :
    geocode_address_nominatim address RespuestaRed.excepcion = Except.ok none ∧
    geocode_address_nominatim address RespuestaRed.jsonInvalido = Except.ok none ∧
    geocode_address_nominatim address (RespuestaRed.datos []) = Except.ok none ∧
    (∀ (c : Candidato) (rest : List Candidato) (e : Excepcion),
      floatDe c.lat = Except.error e → atrapadaGeo e = true →
      geocode_address_nominatim address (RespuestaRed.datos (c :: rest)) =
        Except.ok none) ∧
    (∀ (c : Candidato) (rest : List Candidato) (la : ℝ) (e : Excepcion),
      floatDe c.lat = Except.ok la → floatDe c.lon = Except.error e →
      atrapadaGeo e = true →
      geocode_address_nominatim address (RespuestaRed.datos (c :: rest)) =
        Except.ok none) ∧
    (∀ (c : Candidato) (rest : List Candidato) (la lo : ℝ),
      floatDe c.lat = Except.ok la → floatDe c.lon = Except.ok lo →
      geocode_address_nominatim address (RespuestaRed.datos (c :: rest)) =
        Except.ok (some (la, lo))) ∧
    (∀ (c : Candidato) (rest : List Candidato),
      floatDe c.lat = Except.error Excepcion.typeError →
      geocode_address_nominatim address (RespuestaRed.datos (c :: rest)) =
        Except.error Excepcion.typeError) ∧
    (∀ (c : Candidato) (rest : List Candidato) (la : ℝ),
      floatDe c.lat = Except.ok la →
      floatDe c.lon = Except.error Excepcion.typeError →
      geocode_address_nominatim address (RespuestaRed.datos (c :: rest)) =
        Except.error Excepcion.typeError) := by
  refine ⟨rfl, rfl, rfl, ?_, ?_, ?_, ?_, ?_⟩
  · intro c rest e h he
    simp [geocode_address_nominatim, h, he]
  · intro c rest la e h1 h2 he
    simp [geocode_address_nominatim, h1, h2, he]
  · intro c rest la lo h1 h2
    simp [geocode_address_nominatim, h1, h2]
  · intro c rest h
    simp [geocode_address_nominatim, h, atrapadaGeo]
  · intro c rest la h1 h2
    simp [geocode_address_nominatim, h1, h2, atrapadaGeo]

/-- Closed instance of the amended C6: a successful lookup returns the
first candidate's coordinates parsed into two floats. -/
theorem resolver_failure_collapse_amended_witness :
    geocode_address_nominatim "Moneda 1025, Santiago"
        (RespuestaRed.datos [⟨Campo.strNum 2, Campo.strNum 3⟩]) =
      Except.ok (some (2, 3)) :=
  (resolver_failure_collapse_amended "Moneda 1025, Santiago").2.2.2.2.2.1
    ⟨Campo.strNum 2, Campo.strNum 3⟩ [] 2 3 rfl rfl

end
